import Mathlib

/-
Shallow embedding of the SoftWire bit-banged I2C master (src/src/SoftWire.cpp).

Machine integers (uint8_t, uint16_t, uint32_t, size_t) are modelled as Nat
with an explicit % 256 (resp. other moduli) wherever the C++ code truncates.
The pin-level side effects (digitalWrite, pinMode, delayMicroseconds) carry
no data; the observable behaviour relevant to the specification is captured
by the values computed, the buffer state, and the sequence of protocol
outcomes returned by the lower layers.  Calls into lower-level primitives
whose outcome depends on the electrical bus (clock stretching, acknowledge
bits, deadline expiry) are given by outcome oracles: functions from the
call position to the observed outcome, so each theorem quantifies over every
possible behaviour of the bus and slave.
-/

namespace SoftWire

/-- Protocol outcome, result_t in the header: enum with ack = 0, nack, timedOut.
The numeric values matter: the code compares a result against 0 (ack) in
requestFrom, and llRead results are tested for truth (nonzero = failure). -/
inductive Result where
  | ack
  | nack
  | timedOut
deriving DecidableEq, Repr

/-- Numeric value of result_t, as fixed by the enum declaration order. -/
def Result.toNat : Result → Nat
  | .ack => 0
  | .nack => 1
  | .timedOut => 2

/-! ## CRC-8 utility (SoftWire::crc8_update, SoftWire.cpp lines 74-86) -/

/-- One iteration of the for loop in crc8_update: if the top bit of the 8-bit
accumulator is set, shift left and xor with the 0x107 polynomial, else just
shift left; in both branches the store back into the uint8_t crc truncates
to 8 bits. -/
def crc8_iter (crc : Nat) : Nat :=
  if crc &&& 0x80 ≠ 0 then ((crc <<< 1) ^^^ 0x107) % 256
  else (crc <<< 1) % 256

/-- The loop for (uint8_t i = 8; i; --i), run i times. -/
def crc8_loop : Nat → Nat → Nat
  | 0, crc => crc
  | i + 1, crc => crc8_loop i (crc8_iter crc)

/-- SoftWire::crc8_update: crc ^= data, then 8 shift-and-conditional-xor
steps with polynomial 0x107.  Both parameters are uint8_t, hence the % 256. -/
def crc8_update (crc data : Nat) : Nat :=
  crc8_loop 8 ((crc % 256) ^^^ (data % 256))

/-- Folding crc8_update over a byte sequence from an initial value, the way a
caller computes a checksum of a payload. -/
def crc8_fold (init : Nat) (bytes : List Nat) : Nat :=
  bytes.foldl crc8_update init

/-! ## Clock configuration (SoftWire::setClock, SoftWire.cpp lines 391-400) -/

/-- SoftWire::setClock computes period_us = 1000000 / frequency (uint32
division), clamps it to [2, 2 * 255] and calls setDelay_us (period_us / 2).
This function returns the value handed to setDelay_us, i.e. the resulting
half-bit delay in microseconds. -/
def setClock (frequency : Nat) : Nat :=
  let period_us := 1000000 / frequency
  let period_us := if period_us < 2 then 2
    else if period_us > 2 * 255 then 2 * 255
    else period_us
  period_us / 2

/-! ## Byte transaction layer state

The buffer-related fields of the SoftWire object.  The rx and tx buffers are
caller-supplied arrays of fixed capacity (set by setRxBuffer / setTxBuffer in
the header); a buffer is modelled as a List Nat whose length is the capacity
(_rxBufferSize / _txBufferSize), with List.set as the in-bounds store. -/

structure WireState where
  rxBuffer : List Nat
  rxBufferIndex : Nat
  rxBufferBytesRead : Nat
  txAddress : Nat
  txBuffer : List Nat
  txBufferIndex : Nat
  /-- Modelled from the spec: the sticky write-error condition recorded by
  the setWriteError call (declared outside src/); per the spec it is a
  sticky flag observable after the fact, set on buffer overflow. -/
  writeError : Bool
deriving Repr, DecidableEq

/-- SoftWire::write(uint8_t), SoftWire.cpp lines 341-350: if the write cursor
has reached the capacity, record the write error and return 0; otherwise
store the byte at the cursor, advance it, and return 1. -/
def write (s : WireState) (data : Nat) : Nat × WireState :=
  if s.txBufferIndex ≥ s.txBuffer.length then
    (0, { s with writeError := true })
  else
    (1, { s with
            txBuffer := s.txBuffer.set s.txBufferIndex (data % 256),
            txBufferIndex := s.txBufferIndex + 1 })

/-- SoftWire::write(const uint8_t *, size_t), SoftWire.cpp lines 354-361:
r = 0; for each byte r += write(byte); return r.  The byte list stands for
the data array together with the quantity argument. -/
def writeList (s : WireState) : List Nat → Nat × WireState
  | [] => (0, s)
  | d :: rest =>
    let rs := write s d
    let rest_rs := writeList rs.2 rest
    (rs.1 + rest_rs.1, rest_rs.2)

/-- SoftWire::read, SoftWire.cpp lines 364-370: if _rxBufferIndex <
_rxBufferBytesRead, return _rxBuffer[++_rxBufferIndex] (pre-increment: the
cursor is advanced first, then the buffer is indexed at the new cursor),
else return -1.  The out-of-range read _rxBuffer[i] with i at or beyond the
capacity is modelled by List.getD with default 0. -/
def read (s : WireState) : Int × WireState :=
  if s.rxBufferIndex < s.rxBufferBytesRead then
    ((s.rxBuffer.getD (s.rxBufferIndex + 1) 0 : Nat),
     { s with rxBufferIndex := s.rxBufferIndex + 1 })
  else
    (-1, s)

/-- SoftWire::available, SoftWire.cpp lines 335-338: the int subtraction
_rxBufferBytesRead - _rxBufferIndex (which can be negative). -/
def available (s : WireState) : Int :=
  (s.rxBufferBytesRead : Int) - (s.rxBufferIndex : Int)

/-- SoftWire::beginTransmission, SoftWire.cpp lines 403-407: records the
target address and resets the write cursor; no bus activity. -/
def beginTransmission (s : WireState) (address : Nat) : WireState :=
  { s with txAddress := address % 256, txBufferIndex := 0 }

/-! ## Bit engine (SoftWire::llWrite lines 213-264, SoftWire::llRead lines
267-332, SoftWire::llStartWait lines 189-210)

The outcome of each interaction with the physical bus is supplied by an
oracle, indexed by the position of the interaction within the call:
each index answers one loop iteration (the calls occur in increasing index
order, one per bit plus one for the acknowledge phase). -/

/-- Bus behaviour oracle for one llWrite or llRead call.  stretchOk k is the
outcome of the k-th setSclHighAndStretch call (true: SCL observed high before
the deadline); expired k is the k-th explicit timeout.isExpired() test in the
llWrite bit loop; sclWaitOk k is the outcome of the k-th explicit
while (readScl == LOW) wait loop in llRead (true: SCL observed high before
the deadline); sda k is the k-th sampled SDA level (true: HIGH). -/
structure BitEnv where
  stretchOk : Nat → Bool
  expired : Nat → Bool
  sclWaitOk : Nat → Bool
  sda : Nat → Bool

/-- Modelled from the spec: setSclHighAndStretch is declared in the missing
header SoftWire.h.  Per the spec (sections 4.3 and 8) it releases SCL and
spin-waits until the line is observed high or the deadline expires, and any
timeout path invokes a stop sequence as part of error recovery before
returning control; so a failed stretch wait has issued one stop condition.
In the embedding its outcome is the oracle bit and its failure contributes
one stop to the stop count of the enclosing call. -/
def stretchStops : Nat := 1

/-- The 8-bit loop of SoftWire::llWrite followed by the acknowledge phase,
with i bits remaining, the remaining data bits in an 8-bit register, and k
the current oracle index.  Returns the protocol outcome together with the
number of stop conditions issued during the call (by the call itself or by a
failing setSclHighAndStretch).  Per bit: drive SCL low, put the top data bit
on SDA, release SCL waiting out any stretch (timedOut on failure), shift the
register, and return timedOut after a stop if the deadline has expired.
After the 8th bit: release SDA, release SCL waiting out any stretch, then
sample SDA (LOW means ack), ending with SCL driven low. -/
def llWriteBits (env : BitEnv) : Nat → Nat → Nat → Result × Nat
  | 0, _, k =>
    if env.stretchOk k then
      (if env.sda 0 = false then Result.ack else Result.nack, 0)
    else (Result.timedOut, stretchStops)
  | i + 1, data, k =>
    if env.stretchOk k then
      if env.expired k then (Result.timedOut, 1)
      else llWriteBits env i ((data <<< 1) % 256) (k + 1)
    else (Result.timedOut, stretchStops)

/-- SoftWire::llWrite: shift out one byte, most significant bit first, then
capture the acknowledge.  The data parameter is uint8_t. -/
def llWrite (env : BitEnv) (data : Nat) : Result × Nat :=
  llWriteBits env 8 (data % 256) 0

/-- The 8-bit loop of SoftWire::llRead followed by the acknowledge phase.
Per bit: shift the register, drive SCL low, release SDA, release SCL waiting
out any stretch (timedOut on failure), then the explicit
while (readScl == LOW) loop which on deadline expiry issues a stop and
returns timedOut, then sample SDA into the low bit.  After 8 bits: drive the
caller-selected acknowledge on SDA, release SCL waiting out any stretch,
run the same explicit SCL wait loop (stop and timedOut on expiry), and end
with SCL driven low, returning ack.  Result: outcome, the data register, and
the number of stop conditions issued during the call. -/
def llReadBits (env : BitEnv) : Nat → Nat → Nat → Result × Nat × Nat
  | 0, data, k =>
    if env.stretchOk k then
      if env.sclWaitOk k then (Result.ack, data, 0)
      else (Result.timedOut, data, 1)
    else (Result.timedOut, data, stretchStops)
  | i + 1, data, k =>
    let d := (data <<< 1) % 256
    if env.stretchOk k then
      if env.sclWaitOk k then
        llReadBits env i (if env.sda k then d ||| 1 else d) (k + 1)
      else (Result.timedOut, d, 1)
    else (Result.timedOut, d, stretchStops)

/-- SoftWire::llRead: data starts at 0; the sendAck flag selects the
acknowledge driven after the 8 data bits (it changes only the SDA level
driven, never the outcome or the stop count, so the embedding carries it
unused). -/
def llRead (env : BitEnv) (sendAck : Bool) : Result × Nat × Nat :=
  llReadBits env 8 0 0

/-- Oracle for one llStartWait call: expired k is the timeout.isExpired()
test guarding iteration k of the while loop, and writeRes k is the result of
the llWrite(rawAddr) call on iteration k (as it would be if that iteration
were reached). -/
structure StartWaitEnv where
  expired : Nat → Bool
  writeRes : Nat → Result

/-- SoftWire::llStartWait, SoftWire.cpp lines 189-210.  In the source the
switch statement returns on every path: case ack returns ack; case nack
calls stop() and then falls through (there is no break) into the default
case, which calls stop() again and returns timedOut; the default case
returns timedOut after a stop.  Hence the while loop body always returns and
at most one iteration ever executes, which the embedding writes out
directly.  Returns the outcome and the number of stop() calls issued by
llStartWait itself (stops issued inside llWrite are separate). -/
def llStartWait (env : StartWaitEnv) : Result × Nat :=
  if env.expired 0 then (Result.timedOut, 0)
  else
    match env.writeRes 0 with
    | Result.ack => (Result.ack, 0)
    | Result.nack => (Result.timedOut, 2)
    | Result.timedOut => (Result.timedOut, 1)

/-! ## endTransmission (SoftWire.cpp lines 410-430)

The underlying outcome sequence: outcome 0 is the result of
start(_txAddress, writeMode) (the address phase); outcome (i+1) is the
result of llWrite(_txBuffer[i]) for the i-th buffered data byte, as it would
be if that call were reached.  The returned status depends on the buffered
bytes only through these outcomes, so the embedding quantifies over the
outcome sequence directly. -/

/-- The data loop of endTransmission: with the data cursor at i and m = n - i
iterations remaining (n the tx write cursor), shift out byte i; a nack
returns 3, a timedOut returns 4, an ack continues; falling out of the loop
returns 0 (after an optional stop, which does not affect the status). -/
def endTransmissionLoop (outcome : Nat → Result) : Nat → Nat → Nat
  | _, 0 => 0
  | i, m + 1 =>
    match outcome (i + 1) with
    | Result.nack => 3
    | Result.timedOut => 4
    | Result.ack => endTransmissionLoop outcome (i + 1) m

/-- SoftWire::endTransmission: the address phase result maps nack to 2 and
timedOut to 4; otherwise each of the txBufferIndex buffered bytes is shifted
out in turn.  sendStop selects a trailing stop on the success path, which
has no effect on the returned status. -/
def endTransmission (outcome : Nat → Result) (txBufferIndex : Nat)
    (sendStop : Bool) : Nat :=
  match outcome 0 with
  | Result.nack => 2
  | Result.timedOut => 4
  | Result.ack => endTransmissionLoop outcome 0 txBufferIndex

/-! ## requestFrom (SoftWire.cpp lines 433-447) -/

/-- Oracle for one requestFrom call: startRes is the result of
start(address, readMode) (compared against 0, i.e. ack, by the source);
readRes i is the result of the i-th llRead call and readData i the byte it
stores through its reference parameter _rxBuffer[i] (llRead assigns the
referenced byte even on its failure paths, starting by zeroing it). -/
structure RxOutcome where
  startRes : Result
  readRes : Nat → Result
  readData : Nat → Nat

/-- The receive loop of requestFrom: for (uint8_t i = 0; i < quantity; ++i),
written with m = quantity - i iterations remaining.  Iteration i stores the
byte produced by llRead at buffer position i (the source indexes _rxBuffer[i]
with no bounds check: the oob flag records a store at or beyond the
capacity, the reachable error branch of a guarded embedding), breaks if the
llRead result is nonzero (not ack), and otherwise increments
_rxBufferBytesRead and continues. -/
def requestFromLoop (o : RxOutcome) : Nat → Nat → WireState → Bool →
    WireState × Bool
  | _, 0, s, oob => (s, oob)
  | i, m + 1, s, oob =>
    let oob1 := oob || decide (s.rxBuffer.length ≤ i)
    let s1 : WireState := { s with rxBuffer := s.rxBuffer.set i (o.readData i % 256) }
    if o.readRes i = Result.ack then
      requestFromLoop o (i + 1) m
        { s1 with rxBufferBytesRead := s1.rxBufferBytesRead + 1 } oob1
    else (s1, oob1)

/-- SoftWire::requestFrom: _rxBufferBytesRead is reset to 0; if the address
phase result equals 0 (ack) the receive loop runs over quantity bytes; an
optional stop follows; the function then returns _rxBufferIndex — the read
cursor, exactly as the source does (line 446), not the received count.
_rxBufferIndex is not written anywhere in this function.  Result: the
returned value, the final state, and the out-of-bounds store flag. -/
def requestFrom (s : WireState) (o : RxOutcome) (quantity : Nat)
    (sendStop : Bool) : Nat × WireState × Bool :=
  let s0 : WireState := { s with rxBufferBytesRead := 0 }
  let body :=
    if o.startRes = Result.ack then requestFromLoop o 0 quantity s0 false
    else (s0, false)
  (body.1.rxBufferIndex, body.1, body.2)

/-! ## Concrete states and oracles used in counterexamples and witnesses -/

/-- The buffer-related state established by the constructor (SoftWire.cpp
lines 89-111): both buffers NULL with size 0, both cursors 0, received
count 0, default address 8, no write error recorded yet. -/
def initState : WireState :=
  { rxBuffer := [], rxBufferIndex := 0, rxBufferBytesRead := 0,
    txAddress := 8, txBuffer := [], txBufferIndex := 0, writeError := false }

/-- A bus on which the address phase and every byte read are acknowledged
and the slave supplies the byte 0x5A each time. -/
def oracleAllAck : RxOutcome :=
  { startRes := Result.ack, readRes := fun _ => Result.ack,
    readData := fun _ => 0x5A }

/-- A bus on which the address phase of a read is not acknowledged. -/
def oracleStartNack : RxOutcome :=
  { startRes := Result.nack, readRes := fun _ => Result.ack,
    readData := fun _ => 0 }

/-- Fresh state with a 2-byte receive buffer installed. -/
def stateRx2 : WireState := { initState with rxBuffer := [0, 0] }

/-- Receive buffer holding the received bytes 7 and 9 (2 bytes received,
nothing read yet): the state right after a successful 2-byte request on a
correct implementation. -/
def stateTwoUnread : WireState :=
  { initState with rxBuffer := [7, 9], rxBufferBytesRead := 2 }

/-- llStartWait environment: the deadline never expires, the first address
attempt is not acknowledged, and every later attempt would be acknowledged. -/
def envNackThenAck : StartWaitEnv :=
  { expired := fun _ => false,
    writeRes := fun k => if k = 0 then Result.nack else Result.ack }

/-- Bit-engine environment in which every setSclHighAndStretch wait fails
(the slave stretches the clock past the deadline on the very first bit). -/
def envAllStall : BitEnv :=
  { stretchOk := fun _ => false, expired := fun _ => false,
    sclWaitOk := fun _ => true, sda := fun _ => false }

/-- C5 counterexample, step 1: from a fresh state with a 1-byte receive
buffer, a successful 1-byte requestFrom (received count becomes 1). -/
def c5AfterRequest : WireState :=
  (requestFrom { initState with rxBuffer := [0] } oracleAllAck 1 true).2.1

/-- C5 counterexample, step 2: one read call (read cursor becomes 1). -/
def c5AfterRead : WireState := (read c5AfterRequest).2

/-- C5 counterexample, step 3: a requestFrom whose address phase is nacked
(received count reset to 0, read cursor left at 1). -/
def c5Final : WireState :=
  (requestFrom c5AfterRead oracleStartNack 1 true).2.1

/-- Fresh state with a 2-byte transmit buffer installed. -/
def stateTx2 : WireState := { initState with txBuffer := [0, 0] }

/-- State whose 1-byte transmit buffer is already full (cursor 1 = capacity). -/
def stateTxFull : WireState :=
  { initState with txBuffer := [3], txBufferIndex := 1 }

/-! ## Helper lemmas -/

theorem crc8_iter_lt_256 (c : Nat) : crc8_iter c < 256 := by
  unfold crc8_iter
  split
  · exact Nat.mod_lt _ (by norm_num)
  · exact Nat.mod_lt _ (by norm_num)

theorem crc8_loop_lt_256 : ∀ (i c : Nat), c < 256 → crc8_loop i c < 256
  | 0, _, h => h
  | i + 1, c, _ => crc8_loop_lt_256 i (crc8_iter c) (crc8_iter_lt_256 c)

/-! ## Claim theorems -/

/-- C9: crc8_update is a pure function performing one CRC-8 step with
polynomial 0x107; folding it from initial value 0 over the byte sequence
with the single byte 0x00 yields 0x00; folding a concatenation equals
folding the first part and then folding the second part from that
intermediate value, for every split point; and the result is always an
8-bit value. -/
theorem crc8_update_contract :
    crc8_fold 0 [0x00] = 0x00 ∧
    (∀ (init : Nat) (l1 l2 : List Nat),
      crc8_fold init (l1 ++ l2) = crc8_fold (crc8_fold init l1) l2) ∧
    (∀ c d, crc8_update c d < 256) := by
  refine ⟨by decide, ?_, ?_⟩
  · intro init l1 l2
    simp [crc8_fold, List.foldl_append]
  · intro c d
    have h1 : crc8_update c d
        = crc8_loop 7 (crc8_iter ((c % 256) ^^^ (d % 256))) := rfl
    rw [h1]
    exact crc8_loop_lt_256 7 _ (crc8_iter_lt_256 _)

/-- C7: for every nonzero frequency, setClock sets the half-bit delay to
clamp(1000000 / frequency, 2, 510) / 2 microseconds; frequency 100000
yields 5 microseconds, every frequency above 500000 clamps to the floor of
1 microsecond, and every nonzero frequency at most 1956 clamps to the
ceiling of 255 microseconds. -/
theorem setClock_half_bit_delay (f : Nat) (hf : 0 < f) :
    setClock f = min (max (1000000 / f) 2) 510 / 2 ∧
    setClock 100000 = 5 ∧
    (500000 < f → setClock f = 1) ∧
    (f ≤ 1956 → setClock f = 255) := by
  refine ⟨?_, by decide, ?_, ?_⟩
  · simp only [setClock]
    generalize 1000000 / f = p
    split_ifs <;> omega
  · intro h
    have hp : 1000000 / f < 2 := (Nat.div_lt_iff_lt_mul hf).mpr (by omega)
    simp only [setClock]
    rw [if_pos hp]
  · intro h
    have h511 : 511 ≤ 1000000 / f := (Nat.le_div_iff_mul_le hf).mpr (by omega)
    simp only [setClock]
    rw [if_neg (by omega), if_pos (by omega)]

theorem setClock_half_bit_delay_witness :
    0 < 100000 ∧ setClock 100000 = 5 :=
  ⟨by norm_num, (setClock_half_bit_delay 100000 (by norm_num)).2.1⟩

/-- C1: the claim states that requestFrom returns the number of bytes
actually received and buffered (the received count).  On the code this
fails: from a fresh state with a 2-byte receive buffer, a fully
acknowledged 2-byte request buffers 2 bytes (rxBufferBytesRead = 2) yet the
call returns 0, the stale value of the read cursor _rxBufferIndex (line 446
returns _rxBufferIndex, not _rxBufferBytesRead). -/
theorem requestFrom_returns_read_cursor :
    (requestFrom stateRx2 oracleAllAck 2 true).2.1.rxBufferBytesRead = 2 ∧
    (requestFrom stateRx2 oracleAllAck 2 true).1 = 0 := by
  constructor <;> rfl

/-- C2: the claim states that read with at least one unread byte returns
the byte at the current read cursor and then advances the cursor.  On the
code this fails: with received bytes 7 and 9 and the cursor at 0, read
returns 9 — the byte at position 1, because line 367 pre-increments the
cursor before indexing — instead of the byte 7 at the current cursor. -/
theorem read_skips_first_unread_byte :
    (read stateTwoUnread).1 = 9 ∧ (read stateTwoUnread).1 ≠ 7 ∧
    (read stateTwoUnread).2.rxBufferIndex = 1 := by
  refine ⟨rfl, by decide, rfl⟩

/-- C3: the claim states that while the deadline has not expired, a
not-acknowledged attempt triggers a stop followed by another start attempt,
and the call returns acknowledged as soon as any attempt is acknowledged.
On the code this fails: with an unexpired deadline, a first attempt that is
nacked and a second attempt that would be acknowledged, llStartWait returns
timedOut immediately (the case nack falls through, with no break, into the
default case which stops again and returns timedOut), never retrying. -/
theorem llStartWait_nack_no_retry :
    (llStartWait envNackThenAck).1 = Result.timedOut ∧
    (llStartWait envNackThenAck).2 = 2 := by
  constructor <;> rfl

/-- C5: the claim states that after every public operation the receive read
cursor never exceeds the count of bytes received in the last request, across
any interleaving of public calls.  On the code this fails: after a
successful 1-byte requestFrom, one read (cursor becomes 1), and a second
requestFrom whose address phase is nacked (received count reset to 0, the
cursor never reset by requestFrom), the cursor 1 exceeds the count 0. -/
theorem rx_cursor_exceeds_received_count :
    c5Final.rxBufferBytesRead < c5Final.rxBufferIndex ∧
    c5Final.rxBufferIndex = 1 ∧ c5Final.rxBufferBytesRead = 0 := by
  refine ⟨by decide, rfl, rfl⟩

theorem llWriteBits_timeout_stop (env : BitEnv) :
    ∀ (i data k : Nat), (llWriteBits env i data k).1 = Result.timedOut →
      0 < (llWriteBits env i data k).2 := by
  intro i
  induction i with
  | zero =>
    intro data k h
    by_cases hs : env.stretchOk k
    · simp only [llWriteBits, hs, if_true] at h
      by_cases hd : env.sda 0 = false <;> simp [hd] at h
    · simp [llWriteBits, hs, stretchStops]
  | succ i ih =>
    intro data k h
    by_cases hs : env.stretchOk k
    · by_cases he : env.expired k
      · simp [llWriteBits, hs, he]
      · simp only [llWriteBits, hs, he, if_true, if_false] at h ⊢
        exact ih _ _ h
    · simp [llWriteBits, hs, stretchStops]

theorem llReadBits_timeout_stop (env : BitEnv) :
    ∀ (i data k : Nat), (llReadBits env i data k).1 = Result.timedOut →
      0 < (llReadBits env i data k).2.2 := by
  intro i
  induction i with
  | zero =>
    intro data k h
    by_cases hs : env.stretchOk k
    · by_cases hw : env.sclWaitOk k
      · simp [llReadBits, hs, hw] at h
      · simp [llReadBits, hs, hw]
    · simp [llReadBits, hs, stretchStops]
  | succ i ih =>
    intro data k h
    by_cases hs : env.stretchOk k
    · by_cases hw : env.sclWaitOk k
      · simp only [llReadBits, hs, hw, if_true, if_false] at h ⊢
        exact ih _ _ h
      · simp [llReadBits, hs, hw]
    · simp [llReadBits, hs, stretchStops]

/-- C4: whenever llWrite or llRead returns timedOut, it has issued a stop
condition before returning — either the explicit stop on the deadline check
or SCL wait paths, or the stop issued by the failing clock-stretch wait —
for every bus behaviour, byte value and acknowledge selection. -/
theorem ll_timeout_issues_stop (env : BitEnv) (data : Nat) (sendAck : Bool) :
    ((llWrite env data).1 = Result.timedOut → 0 < (llWrite env data).2) ∧
    ((llRead env sendAck).1 = Result.timedOut → 0 < (llRead env sendAck).2.2) :=
  ⟨fun h => llWriteBits_timeout_stop env 8 (data % 256) 0 h,
   fun h => llReadBits_timeout_stop env 8 0 0 h⟩

theorem ll_timeout_issues_stop_witness :
    0 < (llWrite envAllStall 0x55).2 ∧ 0 < (llRead envAllStall true).2.2 :=
  ⟨(ll_timeout_issues_stop envAllStall 0x55 true).1 rfl,
   (ll_timeout_issues_stop envAllStall 0x55 true).2 rfl⟩

theorem requestFromLoop_in_bounds (o : RxOutcome) :
    ∀ (m i : Nat) (s : WireState), i + m ≤ s.rxBuffer.length →
      (requestFromLoop o i m s false).2 = false := by
  intro m
  induction m with
  | zero => intro i s _; rfl
  | succ m ih =>
    intro i s hlen
    have hi : ¬ s.rxBuffer.length ≤ i := by omega
    simp only [requestFromLoop, hi, decide_False, Bool.or_false]
    split
    · exact ih (i + 1) _ (by simp [List.length_set]; omega)
    · rfl

/-- C10: requestFrom never compares quantity against the receive buffer
capacity.  For every state, bus behaviour and send-stop flag, a quantity
within the capacity makes every receive-buffer store in the loop in bounds
(the out-of-bounds flag of the guarded embedding stays false); and with
quantity 1 against the capacity-0 buffer of the constructor state, the loop
stores out of bounds (the error branch is reachable). -/
theorem requestFrom_capacity_unchecked (s : WireState) (o : RxOutcome)
    (q : Nat) (b : Bool) :
    (q ≤ s.rxBuffer.length → (requestFrom s o q b).2.2 = false) ∧
    (requestFrom initState oracleAllAck 1 true).2.2 = true := by
  constructor
  · intro hq
    simp only [requestFrom]
    by_cases hs : o.startRes = Result.ack
    · simp only [hs, if_true]
      exact requestFromLoop_in_bounds o q 0 _ (by simpa using hq)
    · simp [hs]
  · rfl

theorem requestFrom_capacity_unchecked_witness :
    (requestFrom stateRx2 oracleAllAck 2 true).2.2 = false ∧
    (requestFrom initState oracleAllAck 1 true).2.2 = true :=
  ⟨(requestFrom_capacity_unchecked stateRx2 oracleAllAck 2 true).1 (by decide),
   (requestFrom_capacity_unchecked stateRx2 oracleAllAck 2 true).2⟩

theorem getD_set_same (l : List Nat) (i v : Nat) (h : i < l.length) :
    (l.set i v).getD i 0 = v := by
  simp [List.getD_eq_getElem?_getD, List.getElem?_set, h]

theorem getD_set_other (l : List Nat) (i j v : Nat) (h : i ≠ j) :
    (l.set i v).getD j 0 = l.getD j 0 := by
  simp [List.getD_eq_getElem?_getD, List.getElem?_set, h]

theorem write_ok (s : WireState) (d : Nat) (h : s.txBufferIndex < s.txBuffer.length) :
    write s d = (1, { s with
      txBuffer := s.txBuffer.set s.txBufferIndex (d % 256),
      txBufferIndex := s.txBufferIndex + 1 }) := by
  have hn : ¬ s.txBufferIndex ≥ s.txBuffer.length := by omega
  simp [write, hn]

theorem write_full (s : WireState) (d : Nat) (h : s.txBuffer.length ≤ s.txBufferIndex) :
    write s d = (0, { s with writeError := true }) := by
  simp [write, h]

theorem writeList_spec :
    ∀ (l : List Nat) (s : WireState),
      (writeList s l).1 = min l.length (s.txBuffer.length - s.txBufferIndex) ∧
      (writeList s l).2.txBufferIndex = s.txBufferIndex + (writeList s l).1 ∧
      ∀ j, j < s.txBufferIndex →
        (writeList s l).2.txBuffer.getD j 0 = s.txBuffer.getD j 0 := by
  intro l
  induction l with
  | nil =>
    intro s
    refine ⟨by simp [writeList], rfl, fun j hj => rfl⟩
  | cons d rest ih =>
    intro s
    by_cases hfull : s.txBuffer.length ≤ s.txBufferIndex
    · simp only [writeList, write_full s d hfull]
      obtain ⟨ih1, ih2, ih3⟩ := ih { s with writeError := true }
      simp only at ih1 ih2 ih3
      refine ⟨?_, ?_, fun j hj => ih3 j hj⟩
      · rw [ih1]; simp only [List.length_cons]; omega
      · rw [ih2]; omega
    · have hlt : s.txBufferIndex < s.txBuffer.length := by omega
      simp only [writeList, write_ok s d hlt]
      obtain ⟨ih1, ih2, ih3⟩ :=
        ih { s with
          txBuffer := s.txBuffer.set s.txBufferIndex (d % 256),
          txBufferIndex := s.txBufferIndex + 1 }
      simp only [List.length_set] at ih1 ih2 ih3
      refine ⟨?_, ?_, fun j hj => ?_⟩
      · rw [ih1]; simp only [List.length_cons]; omega
      · rw [ih2, ih1]; omega
      · rw [ih3 j (by omega), getD_set_other _ _ _ _ (by omega)]

/-- C8: while transmit-buffer capacity remains, a single-byte write appends
the byte at the cursor, advances the cursor, returns 1 and leaves the error
flag alone; once the buffer is full, a single-byte write returns 0, sets
the sticky write-error flag and changes nothing else; the multi-byte write
returns the number of bytes actually appended (the shorter of the request
and the remaining capacity, with the cursor advanced by exactly that
count); and in all cases previously buffered bytes are unchanged. -/
theorem write_buffer_contract (s : WireState) (d : Nat) (l : List Nat) :
    (s.txBufferIndex < s.txBuffer.length →
      (write s d).1 = 1 ∧
      (write s d).2.txBufferIndex = s.txBufferIndex + 1 ∧
      (write s d).2.txBuffer.getD s.txBufferIndex 0 = d % 256 ∧
      (∀ j, j < s.txBufferIndex →
        (write s d).2.txBuffer.getD j 0 = s.txBuffer.getD j 0) ∧
      (write s d).2.writeError = s.writeError) ∧
    (s.txBuffer.length ≤ s.txBufferIndex →
      (write s d).1 = 0 ∧
      (write s d).2.writeError = true ∧
      (write s d).2.txBuffer = s.txBuffer ∧
      (write s d).2.txBufferIndex = s.txBufferIndex) ∧
    ((writeList s l).1 = min l.length (s.txBuffer.length - s.txBufferIndex) ∧
      (writeList s l).2.txBufferIndex = s.txBufferIndex + (writeList s l).1 ∧
      (∀ j, j < s.txBufferIndex →
        (writeList s l).2.txBuffer.getD j 0 = s.txBuffer.getD j 0)) := by
  refine ⟨?_, ?_, writeList_spec l s⟩
  · intro h
    rw [write_ok s d h]
    exact ⟨rfl, rfl, getD_set_same _ _ _ h,
      fun j hj => getD_set_other _ _ _ _ (by omega), rfl⟩
  · intro h
    rw [write_full s d h]
    exact ⟨rfl, rfl, rfl, rfl⟩

theorem write_buffer_contract_witness :
    (write stateTx2 7).1 = 1 ∧
    (write stateTxFull 7).1 = 0 ∧
    (write stateTxFull 7).2.writeError = true ∧
    (writeList stateTx2 [1, 2, 3]).1 = 2 :=
  ⟨((write_buffer_contract stateTx2 7 []).1 (by decide)).1,
   ((write_buffer_contract stateTxFull 7 []).2.1 (by decide)).1,
   ((write_buffer_contract stateTxFull 7 []).2.1 (by decide)).2.1,
   ((write_buffer_contract stateTx2 7 [1, 2, 3]).2.2.1).trans (by decide)⟩

theorem etl_eq_zero (o : Nat → Result) :
    ∀ m i, endTransmissionLoop o i m = 0 ↔
      ∀ j, j < m → o (i + j + 1) = Result.ack := by
  intro m
  induction m with
  | zero =>
    intro i
    constructor
    · intro _ j hj; exact absurd hj (Nat.not_lt_zero j)
    · intro _; rfl
  | succ m ih =>
    intro i
    cases h : o (i + 1) with
    | ack =>
      have hstep : endTransmissionLoop o i (m + 1) = endTransmissionLoop o (i + 1) m := by
        simp [endTransmissionLoop, h]
      rw [hstep, ih (i + 1)]
      constructor
      · intro H j hj
        cases j with
        | zero => simpa using h
        | succ j =>
          rw [show i + (j + 1) + 1 = (i + 1) + j + 1 from by omega]
          exact H j (Nat.lt_of_succ_lt_succ hj)
      · intro H j hj
        rw [show (i + 1) + j + 1 = i + (j + 1) + 1 from by omega]
        exact H (j + 1) (Nat.succ_lt_succ hj)
    | nack =>
      have hstep : endTransmissionLoop o i (m + 1) = 3 := by
        simp [endTransmissionLoop, h]
      rw [hstep]
      constructor
      · intro H; exact absurd H (by norm_num)
      · intro H
        have h0 := H 0 (Nat.succ_pos m)
        rw [show i + 0 + 1 = i + 1 from by omega, h] at h0
        exact Result.noConfusion h0
    | timedOut =>
      have hstep : endTransmissionLoop o i (m + 1) = 4 := by
        simp [endTransmissionLoop, h]
      rw [hstep]
      constructor
      · intro H; exact absurd H (by norm_num)
      · intro H
        have h0 := H 0 (Nat.succ_pos m)
        rw [show i + 0 + 1 = i + 1 from by omega, h] at h0
        exact Result.noConfusion h0

theorem etl_eq_three (o : Nat → Result) :
    ∀ m i, endTransmissionLoop o i m = 3 ↔
      ∃ j, j < m ∧ o (i + j + 1) = Result.nack ∧
        ∀ t, t < j → o (i + t + 1) = Result.ack := by
  intro m
  induction m with
  | zero =>
    intro i
    constructor
    · intro H; simp [endTransmissionLoop] at H
    · rintro ⟨j, hj, _⟩; exact absurd hj (Nat.not_lt_zero j)
  | succ m ih =>
    intro i
    cases h : o (i + 1) with
    | ack =>
      have hstep : endTransmissionLoop o i (m + 1) = endTransmissionLoop o (i + 1) m := by
        simp [endTransmissionLoop, h]
      rw [hstep, ih (i + 1)]
      constructor
      · rintro ⟨j, hj, hnk, hprev⟩
        refine ⟨j + 1, Nat.succ_lt_succ hj, ?_, ?_⟩
        · rw [show i + (j + 1) + 1 = (i + 1) + j + 1 from by omega]; exact hnk
        · intro t ht
          cases t with
          | zero => simpa using h
          | succ t =>
            rw [show i + (t + 1) + 1 = (i + 1) + t + 1 from by omega]
            exact hprev t (Nat.lt_of_succ_lt_succ ht)
      · rintro ⟨j, hj, hnk, hprev⟩
        cases j with
        | zero =>
          rw [show i + 0 + 1 = i + 1 from by omega, h] at hnk
          exact Result.noConfusion hnk
        | succ j =>
          refine ⟨j, Nat.lt_of_succ_lt_succ hj, ?_, ?_⟩
          · rw [show (i + 1) + j + 1 = i + (j + 1) + 1 from by omega]; exact hnk
          · intro t ht
            rw [show (i + 1) + t + 1 = i + (t + 1) + 1 from by omega]
            exact hprev (t + 1) (Nat.succ_lt_succ ht)
    | nack =>
      have hstep : endTransmissionLoop o i (m + 1) = 3 := by
        simp [endTransmissionLoop, h]
      rw [hstep]
      constructor
      · intro _
        exact ⟨0, Nat.succ_pos m, by simpa using h,
          fun t ht => absurd ht (Nat.not_lt_zero t)⟩
      · intro _; rfl
    | timedOut =>
      have hstep : endTransmissionLoop o i (m + 1) = 4 := by
        simp [endTransmissionLoop, h]
      rw [hstep]
      constructor
      · intro H; exact absurd H (by norm_num)
      · rintro ⟨j, hj, hnk, hprev⟩
        cases j with
        | zero =>
          rw [show i + 0 + 1 = i + 1 from by omega, h] at hnk
          exact Result.noConfusion hnk
        | succ j =>
          have h0 := hprev 0 (Nat.succ_pos j)
          rw [show i + 0 + 1 = i + 1 from by omega, h] at h0
          exact Result.noConfusion h0

theorem etl_eq_four (o : Nat → Result) :
    ∀ m i, endTransmissionLoop o i m = 4 ↔
      ∃ j, j < m ∧ o (i + j + 1) = Result.timedOut ∧
        ∀ t, t < j → o (i + t + 1) = Result.ack := by
  intro m
  induction m with
  | zero =>
    intro i
    constructor
    · intro H; simp [endTransmissionLoop] at H
    · rintro ⟨j, hj, _⟩; exact absurd hj (Nat.not_lt_zero j)
  | succ m ih =>
    intro i
    cases h : o (i + 1) with
    | ack =>
      have hstep : endTransmissionLoop o i (m + 1) = endTransmissionLoop o (i + 1) m := by
        simp [endTransmissionLoop, h]
      rw [hstep, ih (i + 1)]
      constructor
      · rintro ⟨j, hj, hto, hprev⟩
        refine ⟨j + 1, Nat.succ_lt_succ hj, ?_, ?_⟩
        · rw [show i + (j + 1) + 1 = (i + 1) + j + 1 from by omega]; exact hto
        · intro t ht
          cases t with
          | zero => simpa using h
          | succ t =>
            rw [show i + (t + 1) + 1 = (i + 1) + t + 1 from by omega]
            exact hprev t (Nat.lt_of_succ_lt_succ ht)
      · rintro ⟨j, hj, hto, hprev⟩
        cases j with
        | zero =>
          rw [show i + 0 + 1 = i + 1 from by omega, h] at hto
          exact Result.noConfusion hto
        | succ j =>
          refine ⟨j, Nat.lt_of_succ_lt_succ hj, ?_, ?_⟩
          · rw [show (i + 1) + j + 1 = i + (j + 1) + 1 from by omega]; exact hto
          · intro t ht
            rw [show (i + 1) + t + 1 = i + (t + 1) + 1 from by omega]
            exact hprev (t + 1) (Nat.succ_lt_succ ht)
    | nack =>
      have hstep : endTransmissionLoop o i (m + 1) = 3 := by
        simp [endTransmissionLoop, h]
      rw [hstep]
      constructor
      · intro H; exact absurd H (by norm_num)
      · rintro ⟨j, hj, hto, hprev⟩
        cases j with
        | zero =>
          rw [show i + 0 + 1 = i + 1 from by omega, h] at hto
          exact Result.noConfusion hto
        | succ j =>
          have h0 := hprev 0 (Nat.succ_pos j)
          rw [show i + 0 + 1 = i + 1 from by omega, h] at h0
          exact Result.noConfusion h0
    | timedOut =>
      have hstep : endTransmissionLoop o i (m + 1) = 4 := by
        simp [endTransmissionLoop, h]
      rw [hstep]
      constructor
      · intro _
        exact ⟨0, Nat.succ_pos m, by simpa using h,
          fun t ht => absurd ht (Nat.not_lt_zero t)⟩
      · intro _; rfl

theorem etl_ne_two (o : Nat → Result) :
    ∀ m i, endTransmissionLoop o i m ≠ 2 := by
  intro m
  induction m with
  | zero => intro i H; simp [endTransmissionLoop] at H
  | succ m ih =>
    intro i H
    cases h : o (i + 1) with
    | ack =>
      rw [show endTransmissionLoop o i (m + 1) = endTransmissionLoop o (i + 1) m from by
        simp [endTransmissionLoop, h]] at H
      exact ih (i + 1) H
    | nack =>
      rw [show endTransmissionLoop o i (m + 1) = 3 from by
        simp [endTransmissionLoop, h]] at H
      exact absurd H (by norm_num)
    | timedOut =>
      rw [show endTransmissionLoop o i (m + 1) = 4 from by
        simp [endTransmissionLoop, h]] at H
      exact absurd H (by norm_num)

/-- C6: endTransmission returns exactly 0 when the address byte and every
buffered data byte are acknowledged, 2 when the address byte is not
acknowledged, 3 when the address is acknowledged and the first failing data
byte is not acknowledged, and 4 when the address phase times out or the
first failing data byte times out — for every buffer length, underlying
outcome sequence and send-stop flag. -/
theorem endTransmission_status_codes (o : Nat → Result) (n : Nat) (b : Bool) :
    (endTransmission o n b = 0 ↔
      o 0 = Result.ack ∧ ∀ i, i < n → o (i + 1) = Result.ack) ∧
    (endTransmission o n b = 2 ↔ o 0 = Result.nack) ∧
    (endTransmission o n b = 3 ↔
      o 0 = Result.ack ∧ ∃ i, i < n ∧ o (i + 1) = Result.nack ∧
        ∀ j, j < i → o (j + 1) = Result.ack) ∧
    (endTransmission o n b = 4 ↔
      o 0 = Result.timedOut ∨
        (o 0 = Result.ack ∧ ∃ i, i < n ∧ o (i + 1) = Result.timedOut ∧
          ∀ j, j < i → o (j + 1) = Result.ack)) := by
  cases h0 : o 0 with
  | ack =>
    have hunfold : endTransmission o n b = endTransmissionLoop o 0 n := by
      simp [endTransmission, h0]
    rw [hunfold]
    refine ⟨?_, ?_, ?_, ?_⟩
    · rw [etl_eq_zero o n 0]
      constructor
      · intro H; exact ⟨rfl, fun i hi => by simpa using H i hi⟩
      · intro H i hi; simpa using H.2 i hi
    · constructor
      · intro H; exact absurd H (etl_ne_two o n 0)
      · intro H; exact Result.noConfusion H
    · rw [etl_eq_three o n 0]
      constructor
      · rintro ⟨j, hj, hn, hp⟩
        exact ⟨rfl, j, hj, by simpa using hn, fun t ht => by simpa using hp t ht⟩
      · rintro ⟨_, j, hj, hn, hp⟩
        exact ⟨j, hj, by simpa using hn, fun t ht => by simpa using hp t ht⟩
    · rw [etl_eq_four o n 0]
      constructor
      · rintro ⟨j, hj, hn, hp⟩
        exact Or.inr ⟨rfl, j, hj, by simpa using hn,
          fun t ht => by simpa using hp t ht⟩
      · rintro (H | ⟨_, j, hj, hn, hp⟩)
        · exact Result.noConfusion H
        · exact ⟨j, hj, by simpa using hn, fun t ht => by simpa using hp t ht⟩
  | nack =>
    have hunfold : endTransmission o n b = 2 := by simp [endTransmission, h0]
    rw [hunfold]
    refine ⟨?_, ?_, ?_, ?_⟩
    · constructor
      · intro H; exact absurd H (by norm_num)
      · rintro ⟨H, _⟩; exact Result.noConfusion H
    · simp
    · constructor
      · intro H; exact absurd H (by norm_num)
      · rintro ⟨H, _⟩; exact Result.noConfusion H
    · constructor
      · intro H; exact absurd H (by norm_num)
      · rintro (H | ⟨H, _⟩) <;> exact Result.noConfusion H
  | timedOut =>
    have hunfold : endTransmission o n b = 4 := by simp [endTransmission, h0]
    rw [hunfold]
    refine ⟨?_, ?_, ?_, ?_⟩
    · constructor
      · intro H; exact absurd H (by norm_num)
      · rintro ⟨H, _⟩; exact Result.noConfusion H
    · constructor
      · intro H; exact absurd H (by norm_num)
      · intro H; exact Result.noConfusion H
    · constructor
      · intro H; exact absurd H (by norm_num)
      · rintro ⟨H, _⟩; exact Result.noConfusion H
    · simp

end SoftWire
